import Mathlib

/-!
Shallow embedding of `mlcruz/docker-log-stream` (src/src/lib.rs).

The library has two parts:

* `DockerSystem` — holds `running_containers : HashSet<[u8; 12]>` and, on
  `refresh_containers`, fetches `/containers/json`, parses the body as JSON,
  extracts the first 12 bytes of every entry's `"Id"` string, and diffs the
  resulting set against the stored one (lib.rs lines 96-141).
* `ContainerLog` — opens two streaming log requests (stdout, then stderr with
  a `since` filter) and spawns one forwarding worker per stream plus a
  supervisor task (lib.rs lines 32-91).

HTTP transport, JSON parsing and the tokio runtime are boundaries: they are
modelled as explicit inputs (a `FetchResult`, a chunk stream, a wall clock),
while everything the library itself computes is embedded faithfully.
-/

/-- Parse tree of a JSON document, the boundary output of `serde_json::from_slice`
(lib.rs line 110).  Object keys are unique in a `serde_json::Map`, so field
lookup by first match is faithful. -/
inductive Json where
  | null
  | bool (b : Bool)
  | num (n : Int)
  | str (s : String)
  | arr (elems : List Json)
  | obj (fields : List (String × Json))

/-- `serde_json::Value::get(key)`: field lookup, `None` on non-objects.
(lib.rs line 117, `v.get("Id")`). -/
def Json.get (v : Json) (key : String) : Option Json :=
  match v with
  | .obj fields =>
    match fields.find? (fun f => f.1 = key) with
    | some f => some f.2
    | none => none
  | _ => none

/-- `serde_json::Value::as_str` (lib.rs line 117). -/
def Json.asStr (v : Json) : Option String :=
  match v with
  | .str s => some s
  | _ => none

/-- `serde_json::Value::as_array` (lib.rs line 113). -/
def Json.asArray (v : Json) : Option (List Json) :=
  match v with
  | .arr elems => some elems
  | _ => none

/-- UTF-8 encoding of one character, byte values as `Nat`
(the bytes `str::as_bytes` exposes, lib.rs line 117). -/
def utf8Bytes (c : Char) : List Nat :=
  let n := c.toNat
  if n < 0x80 then [n]
  else if n < 0x800 then
    [0xC0 ||| (n >>> 6), 0x80 ||| (n &&& 0x3F)]
  else if n < 0x10000 then
    [0xE0 ||| (n >>> 12), 0x80 ||| ((n >>> 6) &&& 0x3F), 0x80 ||| (n &&& 0x3F)]
  else
    [0xF0 ||| (n >>> 18), 0x80 ||| ((n >>> 12) &&& 0x3F),
     0x80 ||| ((n >>> 6) &&& 0x3F), 0x80 ||| (n &&& 0x3F)]

/-- `String::as_bytes` — the UTF-8 byte sequence of a Rust string. -/
def strBytes (s : String) : List Nat :=
  (s.data.map utf8Bytes).flatten

/-- The stored identity of a container: the `[u8; 12]` array built from the
first 12 bytes of the reported `Id` string (lib.rs lines 117-120). -/
abbrev ShortId := List Nat

/-- Lib.rs lines 117-120: `let bytes = &id.as_bytes()[0..12]` copied into a
`[u8; 12]`.  `none` models the panic of the slice `[0..12]` when the string
has fewer than 12 bytes. -/
def shortIdOfStr (s : String) : Option ShortId :=
  let bs := strBytes s
  if bs.length < 12 then none else some (bs.take 12)

/-- Lib.rs line 117: `v.get("Id").unwrap().as_str().unwrap()` then the 12-byte
slice.  `none` models the panic of either `unwrap` or of the slice. -/
def extractShortId (v : Json) : Option ShortId :=
  match v.get "Id" with
  | none => none
  | some idv =>
    match idv.asStr with
    | none => none
    | some s => shortIdOfStr s

/-- Lib.rs lines 112-122: `parsed.as_array().unwrap()` mapped through the id
extraction and collected into a `HashSet`.  `none` models a panic on a
non-array body or on any malformed entry. -/
def snapshotIds (v : Json) : Option (Finset ShortId) :=
  match v.asArray with
  | none => none
  | some elems =>
    match elems.mapM extractShortId with
    | none => none
    | some ids => some ids.toFinset

/-- Outcome of the snapshot-fetch boundary inside `refresh_containers`:
the transport/parse pipeline of lib.rs lines 97-110. -/
inductive FetchResult where
  /-- `UNIX_CLIENT.get(...)` itself fails (lib.rs line 97). -/
  | connectFailure
  /-- reading a body chunk fails (`data?`, lib.rs line 106). -/
  | readFailure
  /-- the assembled body is not valid JSON (`serde_json::from_slice?`, line 110). -/
  | parseFailure
  /-- the body parses to the JSON value `v`. -/
  | parsed (v : Json)

/-- Data returned by one successful pass of `refresh_containers`. -/
structure RefreshOk where
  /-- `new`: the ids extended into the set (lib.rs lines 124-129). -/
  added : Finset ShortId
  /-- `dropped`: the ids removed from the set (lib.rs lines 131-139). -/
  removed : Finset ShortId
  /-- `self.running_containers` after the call returns `Ok(())`. -/
  newRunning : Finset ShortId
deriving DecidableEq

/-- How a call to `refresh_containers` ends. -/
inductive RefreshResult where
  | ok (r : RefreshOk)
  /-- `Err` returned to the caller through `?`. -/
  | fetchError
  /-- a panic raised by an `unwrap` or an out-of-bounds slice. -/
  | panicked
deriving DecidableEq

/-- `DockerSystem::refresh_containers` (lib.rs lines 96-141) as a function of
the previous `running_containers` set and the fetch outcome.  Mutation order
is the source's: `new` is computed first, the set is extended with it, and
`dropped` is computed against the extended set before being removed. -/
def refresh_containers (running : Finset ShortId) (fetch : FetchResult) :
    RefreshResult :=
  match fetch with
  | .connectFailure => .panicked
  | .readFailure => .fetchError
  | .parseFailure => .fetchError
  | .parsed v =>
    match snapshotIds v with
    | none => .panicked
    | some currently_running =>
      let new := currently_running \ running
      let extended := running ∪ new
      let dropped := extended \ currently_running
      .ok ⟨new, dropped, extended \ dropped⟩

/-- `DockerSystem::new` (lib.rs lines 150-157): starts from the empty set and
`unwrap`s the result of one `refresh_containers` call. -/
def DockerSystem.new (fetch : FetchResult) : RefreshResult :=
  match refresh_containers ∅ fetch with
  | .ok r => .ok r
  | .fetchError => .panicked
  | .panicked => .panicked

/-- Value of one hex digit character, by its code point — the digit table of
`hex::decode` (lib.rs line 146). -/
def hexDigitVal (c : Char) : Option Nat :=
  let n := c.toNat
  if 48 ≤ n ∧ n ≤ 57 then some (n - 48)
  else if 97 ≤ n ∧ n ≤ 102 then some (n - 87)
  else if 65 ≤ n ∧ n ≤ 70 then some (n - 55)
  else none

/-- `hex::decode` on a character sequence: pairs of hex digits to bytes,
`none` on odd length or a non-hex character (lib.rs line 146). -/
def hexDecodeChars : List Char → Option (List Nat)
  | [] => some []
  | [_] => none
  | c1 :: c2 :: rest =>
    match hexDigitVal c1, hexDigitVal c2, hexDecodeChars rest with
    | some hi, some lo, some bs => some ((16 * hi + lo) :: bs)
    | _, _, _ => none

/-- Lowercase hex digit of a value below 16 — `hex::encode`'s alphabet. -/
def hexDigitChar (v : Nat) : Char :=
  if v < 10 then Char.ofNat (48 + v) else Char.ofNat (87 + v)

/-- `hex::encode`: each byte to two lowercase hex digits (lib.rs line 146). -/
def hexEncodeBytes : List Nat → List Char
  | [] => []
  | b :: bs => hexDigitChar (b / 16) :: hexDigitChar (b % 16) :: hexEncodeBytes bs

/-- `std::str::from_utf8` restricted to the ASCII range.  A stored id byte
outside ASCII either fails UTF-8 decoding (panic at `from_utf8(...).unwrap()`)
or decodes to a non-hex character (panic at `hex::decode(...).unwrap()`); both
are the `none` outcome here, so collapsing them is observationally faithful. -/
def bytesToAsciiString (bs : List Nat) : Option String :=
  if bs.all (fun b => b < 128) then some ⟨bs.map Char.ofNat⟩ else none

/-- Lib.rs line 146: `hex::encode(hex::decode(str::from_utf8(c)?)?)` for one
stored 12-byte id; `none` models the panic of either `unwrap`. -/
def containerDisplay (bs : ShortId) : Option String := do
  let s ← bytesToAsciiString bs
  let raw ← hexDecodeChars s.data
  pure ⟨hexEncodeBytes raw⟩

/-- `DockerSystem::running_containers` (lib.rs lines 143-148).  The source
returns a `Vec<String>` in unspecified `HashSet` iteration order; membership
is the only observable, so the result is the image as a set, with `none`
entries marking ids whose display computation panics. -/
def running_containers (s : Finset ShortId) : Finset (Option String) :=
  s.image containerDisplay

/-- State of the full-featured variant: the tracked set plus the owning ids of
the live log sessions registered by the Reconciler. -/
structure ManagedState where
  running : Finset ShortId
  sessions : Finset ShortId
deriving DecidableEq

/-- How a managed refresh cycle ends. -/
inductive ManagedResult where
  | ok (added removed : Finset ShortId) (st : ManagedState)
  | fetchError
  | panicked
deriving DecidableEq

/-- Modelled from the spec: the session-driving `refresh()` of the
full-featured variant (spec §4.1), which is not among the sources under
`src/` — `src/src/lib.rs`'s `refresh_containers` updates only the id set.
The set arithmetic is the source's (`refresh_containers` above); on success,
for every added id a session is opened and registered and for every removed
id the session is discarded, so the registry loses `removed` and gains
`added`.  On a fetch failure nothing is mutated. -/
def refreshManaged (st : ManagedState) (fetch : FetchResult) : ManagedResult :=
  match refresh_containers st.running fetch with
  | .ok r => .ok r.added r.removed ⟨r.newRunning, (st.sessions \ r.removed) ∪ r.added⟩
  | .fetchError => .fetchError
  | .panicked => .panicked

/-- Which of the two log streams a request or worker belongs to. -/
inductive StreamKind where
  | stdout
  | stderr
deriving DecidableEq

/-- A log request against `/containers/{id}/logs`, by its query parameters. -/
structure LogRequest where
  containerId : String
  kind : StreamKind
  follow : Bool
  since : Option Nat
deriving DecidableEq

/-- The stdout request of `ContainerLog::new` (lib.rs lines 33-37):
`/containers/{id}/logs?stdout=1&follow=1` — no `since` parameter. -/
def stdoutRequest (id : String) : LogRequest :=
  ⟨id, .stdout, true, none⟩

/-- The stderr request of `ContainerLog::new` (lib.rs lines 60-64):
`/containers/{id}/logs?stderr=1&follow=1&since={now}`. -/
def stderrRequest (id : String) (t0 : Nat) : LogRequest :=
  ⟨id, .stderr, true, some t0⟩

/-- The path-and-query string the source formats for a request. -/
def LogRequest.render (r : LogRequest) : String :=
  "/containers/" ++ r.containerId ++
    (match r.kind with
      | .stdout => "/logs?stdout=1&follow=1"
      | .stderr => "/logs?stderr=1&follow=1&since=" ++
          (match r.since with | none => "" | some t => toString t))

/-- One observable step of `ContainerLog::new` (lib.rs lines 32-91). -/
inductive OpenStep where
  /-- `UNIX_CLIENT.get(uri)` issued (lines 39 and 66). -/
  | issueRequest (r : LogRequest)
  /-- `unbounded_channel()` created (lines 41 and 67). -/
  | createQueue (k : StreamKind)
  /-- a forwarding worker spawned (lines 43 and 69). -/
  | spawnWorker (k : StreamKind)
  /-- `SystemTime::now()` read (lines 54-58). -/
  | captureTime (t : Nat)
  /-- the supervisor task spawned (line 80). -/
  | spawnSupervisor
  /-- early `return Err` through `?`. -/
  | fail
  /-- `Ok(Self { .. })` returned. -/
  | ret
deriving DecidableEq

/-- `ContainerLog::new` (lib.rs lines 32-91) as the trace of its observable
steps.  `clock n` is the wall-clock reading at trace position `n`; the
outcomes of the two `UNIX_CLIENT.get` calls are boundary inputs.  The source
order is: issue stdout GET, create the stdout queue, spawn the stdout worker,
take `now`, issue the stderr GET with `since=now`, create the stderr queue,
spawn the stderr worker, spawn the supervisor. -/
def containerLogNew (id : String) (clock : Nat → Nat)
    (stdoutConnOk stderrConnOk : Bool) : List OpenStep :=
  let issueStdout := OpenStep.issueRequest (stdoutRequest id)
  if stdoutConnOk then
    let t0 := clock 3
    let pre : List OpenStep :=
      [issueStdout, .createQueue .stdout, .spawnWorker .stdout,
       .captureTime t0, .issueRequest (stderrRequest id t0)]
    if stderrConnOk then
      pre ++ [.createQueue .stderr, .spawnWorker .stderr, .spawnSupervisor, .ret]
    else
      pre ++ [.fail]
  else
    [issueStdout, .fail]

/-- One item delivered by `response.data().await` inside a worker loop. -/
inductive StreamItem where
  /-- `Some(Ok(bytes))`: a chunk of log bytes. -/
  | data (bs : List Nat)
  /-- `Some(Err(_))`: a mid-stream read error. -/
  | readError
deriving DecidableEq

/-- How a worker task ends, with the chunks it pushed before ending. -/
inductive WorkerOutcome where
  /-- the loop saw `None` (end of stream) and the task returned. -/
  | finished (sent : List (List Nat))
  /-- the task aborted via `panic!()` or `send(..).unwrap()`. -/
  | panicked (sent : List (List Nat))
deriving DecidableEq

/-- The worker loop of lib.rs lines 43-52 / 69-78 over the remaining stream,
carrying the index of the next send and the chunks pushed so far.
`alive k` says whether the consumer still holds the receiver at the `k`-th
send: `UnboundedSender::send` fails exactly when the receiver was dropped, and
the source `unwrap`s that result; a read error hits `panic!()`. -/
def runWorkerAux (alive : Nat → Bool) :
    List StreamItem → Nat → List (List Nat) → WorkerOutcome
  | [], _, sent => .finished sent
  | .data d :: rest, k, sent =>
    if alive k then runWorkerAux alive rest (k + 1) (sent ++ [d])
    else .panicked sent
  | .readError :: _, _, sent => .panicked sent

/-- A whole worker task: run the loop from the start of the stream. -/
def runWorker (stream : List StreamItem) (alive : Nat → Bool) : WorkerOutcome :=
  runWorkerAux alive stream 0 []

/-- The data chunks of a stream, in arrival order. -/
def streamDatas : List StreamItem → List (List Nat)
  | [] => []
  | .data d :: rest => d :: streamDatas rest
  | .readError :: rest => streamDatas rest

/-- How the supervisor task ends. -/
inductive SupervisorOutcome where
  | completed
  | panicked
deriving DecidableEq

/-- The supervisor of lib.rs lines 80-83: `stdout_handle.await.unwrap();
stderr_handle.await.unwrap()`.  Awaiting a panicked task yields a
`JoinError`, which the `unwrap` turns into a panic of the supervisor itself
(the stdout handle is unwrapped first). -/
def supervise (stdoutW stderrW : WorkerOutcome) : SupervisorOutcome :=
  match stdoutW with
  | .panicked _ => .panicked
  | .finished _ =>
    match stderrW with
    | .panicked _ => .panicked
    | .finished _ => .completed

/-- Lowercase-hex-digit test on a character, by code point. -/
def isLowerHex (c : Char) : Bool :=
  (48 ≤ c.toNat && c.toNat ≤ 57) || (97 ≤ c.toNat && c.toNat ≤ 102)

/-- A 64-character all-`a` digest, the end-to-end example id of the spec. -/
def id64a : String := ⟨List.replicate 64 'a'⟩

/-- The 12-byte prefix stored for `id64a` (`97` is the code of `a`). -/
def shortA : ShortId := List.replicate 12 97

/-- A one-container snapshot body: `[{"Id": id64a}]`. -/
def vEx : Json := .arr [.obj [("Id", .str id64a)]]

/-- The id set that `vEx` yields. -/
def curEx : Finset ShortId := {shortA}

/-- A digest agreeing with `id64a` on the first 12 characters only. -/
def idAB : String := ⟨List.replicate 12 'a' ++ List.replicate 52 'b'⟩

/-- A digest agreeing with `idAB` on the first 12 characters but not on the
first 24. -/
def idAC : String := ⟨List.replicate 12 'a' ++ List.replicate 52 'c'⟩

lemma str_append_assoc (a b c : String) : a ++ b ++ c = a ++ (b ++ c) := by
  obtain ⟨la⟩ := a
  obtain ⟨lb⟩ := b
  obtain ⟨lc⟩ := c
  exact congrArg String.mk (List.append_assoc la lb lc)

/-- The structured stdout request renders to the exact string lib.rs line 35
formats. -/
lemma stdoutRequest_render (id : String) :
    (stdoutRequest id).render = "/containers/" ++ id ++ "/logs?stdout=1&follow=1" :=
  rfl

/-- The structured stderr request renders to the exact string lib.rs line 62
formats. -/
lemma stderrRequest_render (id : String) (t0 : Nat) :
    (stderrRequest id t0).render =
      "/containers/" ++ id ++ "/logs?stderr=1&follow=1&since=" ++ toString t0 := by
  show "/containers/" ++ id ++ ("/logs?stderr=1&follow=1&since=" ++ toString t0) =
    "/containers/" ++ id ++ "/logs?stderr=1&follow=1&since=" ++ toString t0
  rw [str_append_assoc ("/containers/" ++ id)]

lemma extend_sdiff (running cur : Finset ShortId) :
    (running ∪ cur \ running) \ cur = running \ cur := by
  ext x
  simp only [Finset.mem_sdiff, Finset.mem_union]
  tauto

lemma extend_sdiff_sdiff (running cur : Finset ShortId) :
    (running ∪ cur \ running) \ ((running ∪ cur \ running) \ cur) = cur := by
  ext x
  simp only [Finset.mem_sdiff, Finset.mem_union, not_and, not_not]
  tauto

lemma sdiff_sdiff_union_sdiff (running cur : Finset ShortId) :
    (running \ (running \ cur)) ∪ cur \ running = cur := by
  ext x
  simp only [Finset.mem_sdiff, Finset.mem_union, not_and, not_not]
  tauto

/-- Characterization of a successful `refresh_containers` pass: the source's
extend-then-remove sequence lands exactly on the standard set differences. -/
lemma refresh_parsed_eq (running cur : Finset ShortId) (v : Json)
    (h : snapshotIds v = some cur) :
    refresh_containers running (.parsed v) =
      .ok ⟨cur \ running, running \ cur, cur⟩ := by
  unfold refresh_containers
  dsimp only
  rw [h]
  simp only [RefreshResult.ok.injEq, RefreshOk.mk.injEq]
  exact ⟨trivial, extend_sdiff running cur, extend_sdiff_sdiff running cur⟩

/-- Inversion: a successful `refresh_containers` came from a parsed snapshot
and returned the canonical differences. -/
lemma refresh_containers_ok {running : Finset ShortId} {fetch : FetchResult}
    {r : RefreshOk} (h : refresh_containers running fetch = .ok r) :
    ∃ v cur, fetch = .parsed v ∧ snapshotIds v = some cur ∧
      r = ⟨cur \ running, running \ cur, cur⟩ := by
  cases fetch with
  | connectFailure => exact absurd h (by simp [refresh_containers])
  | readFailure => exact absurd h (by simp [refresh_containers])
  | parseFailure => exact absurd h (by simp [refresh_containers])
  | parsed v =>
    cases hs : snapshotIds v with
    | none =>
      rw [refresh_containers, hs] at h
      exact absurd h (by simp)
    | some cur =>
      refine ⟨v, cur, rfl, hs, ?_⟩
      rw [refresh_parsed_eq running cur v hs] at h
      exact (RefreshResult.ok.injEq _ _).mp h.symm

/-- C1: for every previously-tracked RunningSet and every snapshot `current`
obtained from a successful fetch, `refresh_containers` computes
`added = current − RunningSet` and `removed = RunningSet − current` by
standard set difference, and the RunningSet afterwards equals `current`
exactly. -/
theorem c1_refresh_diff (running : Finset ShortId) (v : Json)
    (current : Finset ShortId) (h : snapshotIds v = some current) :
    refresh_containers running (.parsed v) =
      .ok ⟨current \ running, running \ current, current⟩ :=
  refresh_parsed_eq running current v h

/-- Witness for C1 at the one-container snapshot `vEx` over an empty
previous set. -/
theorem c1_refresh_diff_witness :
    snapshotIds vEx = some curEx ∧
      refresh_containers ∅ (.parsed vEx) =
        .ok ⟨curEx \ ∅, (∅ : Finset ShortId) \ curEx, curEx⟩ :=
  ⟨by decide, c1_refresh_diff ∅ vEx curEx (by decide)⟩

/-- C2 (code evaluated at the failing inputs): a snapshot entry with no `Id`
field makes `refresh_containers` panic at `v.get("Id").unwrap()` instead of
returning a fetch error, and a transport failure on the GET panics at
`UNIX_CLIENT.get(..).await.unwrap()`; only a chunk-read failure or an
unparsable body is returned as an error, with the set untouched. -/
theorem c2_fetch_failure_panics :
    refresh_containers ∅ (.parsed (Json.arr [Json.obj []])) = .panicked ∧
      refresh_containers ∅ .connectFailure = .panicked ∧
      refresh_containers ∅ .parseFailure = .fetchError ∧
      refresh_containers ∅ .readFailure = .fetchError :=
  ⟨rfl, rfl, rfl, rfl⟩

/-- C8 (code evaluated at the failing input): `DockerSystem::new` performs one
refresh, but `unwrap`s its result, so a failed initial refresh panics instead
of returning the failure to the caller. -/
theorem c8_new_unwraps_refresh :
    DockerSystem.new .parseFailure = .panicked ∧
      DockerSystem.new .readFailure = .panicked ∧
      DockerSystem.new .connectFailure = .panicked :=
  ⟨rfl, rfl, rfl⟩

lemma hexDigitVal_round {c : Char} (h : isLowerHex c = true) :
    ∃ v, hexDigitVal c = some v ∧ v < 16 ∧ hexDigitChar v = c := by
  unfold isLowerHex at h
  simp only [Bool.or_eq_true, Bool.and_eq_true, decide_eq_true_eq] at h
  rcases h with ⟨h1, h2⟩ | ⟨h1, h2⟩
  · refine ⟨c.toNat - 48, ?_, by omega, ?_⟩
    · unfold hexDigitVal
      rw [if_pos ⟨h1, h2⟩]
    · unfold hexDigitChar
      rw [if_pos (by omega)]
      have he : 48 + (c.toNat - 48) = c.toNat := by omega
      rw [he, Char.ofNat_toNat]
  · refine ⟨c.toNat - 87, ?_, by omega, ?_⟩
    · unfold hexDigitVal
      rw [if_neg (by omega), if_pos ⟨h1, h2⟩]
    · unfold hexDigitChar
      rw [if_neg (by omega)]
      have he : 87 + (c.toNat - 87) = c.toNat := by omega
      rw [he, Char.ofNat_toNat]

lemma isLowerHex_lt {c : Char} (h : isLowerHex c = true) : c.toNat < 128 := by
  unfold isLowerHex at h
  simp only [Bool.or_eq_true, Bool.and_eq_true, decide_eq_true_eq] at h
  omega

lemma utf8Bytes_ascii {c : Char} (h : c.toNat < 128) : utf8Bytes c = [c.toNat] := by
  unfold utf8Bytes
  rw [if_pos h]

lemma strBytes_ascii_list (l : List Char) (h : ∀ c ∈ l, c.toNat < 128) :
    (l.map utf8Bytes).flatten = l.map Char.toNat := by
  induction l with
  | nil => rfl
  | cons c rest ih =>
    simp only [List.map_cons, List.flatten_cons,
      utf8Bytes_ascii (h c (List.mem_cons_self c rest)),
      ih (fun x hx => h x (List.mem_cons_of_mem c hx)), List.singleton_append]

lemma hexRoundtrip : ∀ l : List Char, (∀ c ∈ l, isLowerHex c = true) →
    l.length % 2 = 0 → ∃ bs, hexDecodeChars l = some bs ∧ hexEncodeBytes bs = l
  | [], _, _ => ⟨[], rfl, rfl⟩
  | [c], _, he => by simp at he
  | c1 :: c2 :: rest, hh, he => by
    obtain ⟨v1, hv1, hlt1, hc1⟩ := hexDigitVal_round (hh c1 (by simp))
    obtain ⟨v2, hv2, hlt2, hc2⟩ := hexDigitVal_round (hh c2 (by simp))
    obtain ⟨bs, hbs, henc⟩ :=
      hexRoundtrip rest (fun c hc => hh c (by simp [hc]))
        (by simp only [List.length_cons] at he ⊢; omega)
    refine ⟨(16 * v1 + v2) :: bs, ?_, ?_⟩
    · unfold hexDecodeChars
      rw [hv1, hv2, hbs]
    · unfold hexEncodeBytes
      have hdiv : (16 * v1 + v2) / 16 = v1 := by omega
      have hmod : (16 * v1 + v2) % 16 = v2 := by omega
      rw [hdiv, hmod, hc1, hc2, henc]

/-- C3 (amended): container identity is the first 12 bytes of the reported
`Id` string — 12 hex characters, i.e. 6 raw digest bytes — so two reported ids
are treated as the same container iff their first-12-byte prefixes are
byte-equal, and `list()` returns each tracked container as its
12-hex-character short-ID string. -/
theorem c3_short_id (s t : String)
    (hs : 12 ≤ (strBytes s).length) (ht : 12 ≤ (strBytes t).length)
    (hhex : ∀ c ∈ s.data, isLowerHex c = true) :
    (shortIdOfStr s = shortIdOfStr t ↔ (strBytes s).take 12 = (strBytes t).take 12) ∧
      containerDisplay ((strBytes s).take 12) = some ⟨s.data.take 12⟩ ∧
      (s.data.take 12).length = 12 := by
  have hsa : ∀ c ∈ s.data, c.toNat < 128 := fun c hc => isLowerHex_lt (hhex c hc)
  have hsb : strBytes s = s.data.map Char.toNat := strBytes_ascii_list s.data hsa
  have hlen : s.data.length = (strBytes s).length := by rw [hsb, List.length_map]
  have hl12len : (s.data.take 12).length = 12 := by
    rw [List.length_take]
    omega
  have htake : (strBytes s).take 12 = (s.data.take 12).map Char.toNat := by
    rw [hsb, List.map_take]
  refine ⟨?_, ?_, hl12len⟩
  · unfold shortIdOfStr
    dsimp only
    rw [if_neg (by omega), if_neg (by omega), Option.some_inj]
  · have hl12hex : ∀ c ∈ s.data.take 12, isLowerHex c = true :=
      fun c hc => hhex c (List.take_subset 12 s.data hc)
    have hl12lt : ∀ c ∈ s.data.take 12, c.toNat < 128 :=
      fun c hc => hsa c (List.take_subset 12 s.data hc)
    obtain ⟨bs, hdec, henc⟩ :=
      hexRoundtrip (s.data.take 12) hl12hex (by rw [hl12len])
    have hascii : bytesToAsciiString ((strBytes s).take 12) = some ⟨s.data.take 12⟩ := by
      unfold bytesToAsciiString
      rw [htake, if_pos, List.map_map]
      · have : (fun c => Char.ofNat c.toNat) = id := funext fun c => Char.ofNat_toNat c
        rw [Function.comp_def]
        simp only [Char.ofNat_toNat, List.map_id']
      · simp only [List.all_eq_true, List.mem_map, decide_eq_true_eq]
        rintro b ⟨c, hc, rfl⟩
        exact hl12lt c hc
    unfold containerDisplay
    rw [hascii]
    show (hexDecodeChars (s.data.take 12)).bind _ = _
    rw [hdec]
    show some (⟨hexEncodeBytes bs⟩ : String) = _
    rw [henc]

/-- C3 is refuted at these inputs: `idAB` and `idAC` agree on their first 12
bytes only, yet the code stores the same `[u8; 12]` for both, although their
first-24-character prefixes differ; and the string `list()` renders for a
tracked container has 12 characters, not 24. -/
theorem c3_counterexample :
    shortIdOfStr idAB = shortIdOfStr idAC ∧
      (strBytes idAB).take 24 ≠ (strBytes idAC).take 24 ∧
      (containerDisplay ((strBytes idAB).take 12)).map String.length = some 12 ∧
      (containerDisplay ((strBytes idAB).take 12)).map String.length ≠ some 24 := by
  decide

/-- Witness for the amended C3 at the concrete digests `id64a` and `idAB`. -/
theorem c3_short_id_witness :
    12 ≤ (strBytes id64a).length ∧ 12 ≤ (strBytes idAB).length ∧
      (∀ c ∈ id64a.data, isLowerHex c = true) ∧
      ((shortIdOfStr id64a = shortIdOfStr idAB ↔
          (strBytes id64a).take 12 = (strBytes idAB).take 12) ∧
        containerDisplay ((strBytes id64a).take 12) = some ⟨id64a.data.take 12⟩ ∧
        (id64a.data.take 12).length = 12) :=
  ⟨by decide, by decide, by decide,
    c3_short_id id64a idAB (by decide) (by decide) (by decide)⟩

/-- C4: after every successful refresh of the session-driving Reconciler
(spec-modelled on top of the source's set arithmetic), the owning ids of the
live log sessions equal the RunningSet exactly, provided they did before. -/
theorem c4_sessions_invariant (st : ManagedState) (fetch : FetchResult)
    (a r : Finset ShortId) (st' : ManagedState)
    (hinv : st.sessions = st.running)
    (h : refreshManaged st fetch = .ok a r st') :
    st'.sessions = st'.running := by
  unfold refreshManaged at h
  cases hr : refresh_containers st.running fetch with
  | ok r0 =>
    rw [hr] at h
    dsimp only at h
    simp only [ManagedResult.ok.injEq] at h
    obtain ⟨ha, hrm, hst⟩ := h
    obtain ⟨v, cur, hv, hsnap, hcanon⟩ := refresh_containers_ok hr
    subst hst
    rw [hcanon]
    dsimp only
    rw [hinv]
    exact sdiff_sdiff_union_sdiff st.running cur
  | fetchError =>
    rw [hr] at h
    exact absurd h (by simp)
  | panicked =>
    rw [hr] at h
    exact absurd h (by simp)

/-- C5: refreshing twice against the same parsed snapshot leaves the
RunningSet and the session registry unchanged after the second call, whose
`added` and `removed` sets are both empty. -/
theorem c5_idempotent (st : ManagedState) (v : Json) (a rem : Finset ShortId)
    (st' : ManagedState) (h : refreshManaged st (.parsed v) = .ok a rem st') :
    refresh_containers st'.running (.parsed v) = .ok ⟨∅, ∅, st'.running⟩ ∧
      refreshManaged st' (.parsed v) = .ok ∅ ∅ st' := by
  unfold refreshManaged at h
  cases hr : refresh_containers st.running (.parsed v) with
  | ok r0 =>
    rw [hr] at h
    dsimp only at h
    simp only [ManagedResult.ok.injEq] at h
    obtain ⟨ha, hrm, hst⟩ := h
    obtain ⟨v2, cur, hv2, hsnap, hcanon⟩ := refresh_containers_ok hr
    injection hv2 with he
    subst he
    subst hst
    rw [hcanon]
    dsimp only
    have hsecond : refresh_containers cur (.parsed v) = .ok ⟨∅, ∅, cur⟩ := by
      have := refresh_parsed_eq cur cur v hsnap
      rwa [Finset.sdiff_self] at this
    constructor
    · exact hsecond
    · unfold refreshManaged
      dsimp only
      rw [hsecond]
      dsimp only
      rw [Finset.sdiff_empty, Finset.union_empty]
  | fetchError =>
    rw [hr] at h
    exact absurd h (by simp)
  | panicked =>
    rw [hr] at h
    exact absurd h (by simp)

/-- Witness for C4: the empty system refreshed with the one-container
snapshot `vEx`. -/
theorem c4_sessions_invariant_witness :
    (ManagedState.mk ∅ ∅).sessions = (ManagedState.mk ∅ ∅).running ∧
      refreshManaged ⟨∅, ∅⟩ (.parsed vEx) = .ok curEx ∅ ⟨curEx, curEx⟩ ∧
      (ManagedState.mk curEx curEx).sessions = (ManagedState.mk curEx curEx).running :=
  ⟨rfl, by decide,
    c4_sessions_invariant ⟨∅, ∅⟩ (.parsed vEx) curEx ∅ ⟨curEx, curEx⟩ rfl (by decide)⟩

/-- Witness for C5: a second refresh against the unchanged snapshot `vEx`
reports empty differences and leaves the state as it was. -/
theorem c5_idempotent_witness :
    refreshManaged ⟨∅, ∅⟩ (.parsed vEx) = .ok curEx ∅ ⟨curEx, curEx⟩ ∧
      (refresh_containers (ManagedState.mk curEx curEx).running (.parsed vEx) =
          .ok ⟨∅, ∅, (ManagedState.mk curEx curEx).running⟩ ∧
        refreshManaged ⟨curEx, curEx⟩ (.parsed vEx) = .ok ∅ ∅ ⟨curEx, curEx⟩) :=
  ⟨by decide, c5_idempotent ⟨∅, ∅⟩ vEx curEx ∅ ⟨curEx, curEx⟩ (by decide)⟩

/-- C6: in a successful session open, the stdout request carries no `since`
filter, the stderr request carries `since` equal to the clock reading taken at
trace position 3 — after the stdout request was issued at position 0 — so with
a monotone wall clock that timestamp is at or after the stdout issue time. -/
theorem c6_stderr_since (id : String) (clock : Nat → Nat) (hmono : Monotone clock) :
    (stdoutRequest id).since = none ∧
      (containerLogNew id clock true true)[0]? =
        some (.issueRequest (stdoutRequest id)) ∧
      (containerLogNew id clock true true)[4]? =
        some (.issueRequest (stderrRequest id (clock 3))) ∧
      (stderrRequest id (clock 3)).since = some (clock 3) ∧
      clock 0 ≤ clock 3 :=
  ⟨rfl, rfl, rfl, rfl, hmono (by omega)⟩

/-- C9: when the initial stdout GET fails, `ContainerLog::new` returns the
error immediately: the trace is just that request and the failure — no queue,
no worker, no supervisor, no timestamp capture, and no second request. -/
theorem c9_failed_stdout_open (id : String) (clock : Nat → Nat) (stderrConnOk : Bool) :
    containerLogNew id clock false stderrConnOk =
        [.issueRequest (stdoutRequest id), .fail] ∧
      (∀ k, OpenStep.spawnWorker k ∉ containerLogNew id clock false stderrConnOk) ∧
      (∀ k, OpenStep.createQueue k ∉ containerLogNew id clock false stderrConnOk) ∧
      (∀ t, OpenStep.captureTime t ∉ containerLogNew id clock false stderrConnOk) ∧
      OpenStep.spawnSupervisor ∉ containerLogNew id clock false stderrConnOk ∧
      ∀ r, OpenStep.issueRequest r ∈ containerLogNew id clock false stderrConnOk →
        r = stdoutRequest id := by
  have htr : containerLogNew id clock false stderrConnOk =
      [.issueRequest (stdoutRequest id), .fail] := rfl
  refine ⟨htr, ?_, ?_, ?_, ?_, ?_⟩
  · intro k
    rw [htr]
    simp
  · intro k
    rw [htr]
    simp
  · intro t
    rw [htr]
    simp
  · rw [htr]
    simp
  · intro r hr
    rw [htr] at hr
    simp only [List.mem_cons, List.not_mem_nil, or_false, OpenStep.issueRequest.injEq] at hr
    rcases hr with h | h
    · exact h
    · exact absurd h (by simp)

/-- The worker terminates cleanly iff the stream had no read error and the
consumer held the receiver through every send; otherwise it panics, having
forwarded some prefix. -/
lemma runWorkerAux_finished (alive : Nat → Bool) :
    ∀ (stream : List StreamItem) (k : Nat) (sent : List (List Nat)),
      (runWorkerAux alive stream k sent = .finished (sent ++ streamDatas stream) ↔
        (StreamItem.readError ∉ stream ∧
          ∀ j < (streamDatas stream).length, alive (k + j) = true))
  | [], k, sent => by
    simp [runWorkerAux, streamDatas]
  | .data d :: rest, k, sent => by
    cases hak : alive k with
    | true =>
      have ih := runWorkerAux_finished alive rest (k + 1) (sent ++ [d])
      rw [List.append_assoc, List.singleton_append] at ih
      rw [runWorkerAux, if_pos hak, streamDatas, ih]
      constructor
      · rintro ⟨h1, h2⟩
        refine ⟨by simp [h1], ?_⟩
        intro j hj
        match j with
        | 0 => simpa using hak
        | j + 1 =>
          have he : k + (j + 1) = k + 1 + j := by omega
          rw [he]
          refine h2 j ?_
          simp only [streamDatas, List.length_cons] at hj
          omega
      · rintro ⟨h1, h2⟩
        refine ⟨fun hm => h1 (List.mem_cons_of_mem _ hm), ?_⟩
        intro j hj
        have he : k + 1 + j = k + (j + 1) := by omega
        rw [he]
        refine h2 (j + 1) ?_
        simp only [streamDatas, List.length_cons]
        omega
    | false =>
      rw [runWorkerAux, if_neg (by simp [hak])]
      refine iff_of_false (by simp) ?_
      rintro ⟨-, h2⟩
      have h0 := h2 0 (by simp [streamDatas])
      rw [Nat.add_zero, hak] at h0
      exact Bool.false_ne_true h0
  | .readError :: rest, k, sent => by
    rw [runWorkerAux]
    refine iff_of_false (by simp) ?_
    rintro ⟨h1, -⟩
    exact h1 (List.mem_cons_self _ _)

/-- Dichotomy: a worker run either panics after some prefix or finishes
having forwarded every chunk in order. -/
lemma runWorkerAux_total (alive : Nat → Bool) :
    ∀ (stream : List StreamItem) (k : Nat) (sent : List (List Nat)),
      (∃ pre, runWorkerAux alive stream k sent = .panicked pre) ∨
        runWorkerAux alive stream k sent = .finished (sent ++ streamDatas stream)
  | [], k, sent => .inr (by simp [runWorkerAux, streamDatas])
  | .data d :: rest, k, sent => by
    cases hak : alive k with
    | true =>
      rcases runWorkerAux_total alive rest (k + 1) (sent ++ [d]) with ⟨pre, hp⟩ | hf
      · exact .inl ⟨pre, by rw [runWorkerAux, if_pos hak, hp]⟩
      · refine .inr ?_
        rw [runWorkerAux, if_pos hak, hf]
        simp [streamDatas, List.append_assoc]
    | false =>
      exact .inl ⟨sent, by rw [runWorkerAux, if_neg (by simp [hak])]⟩
  | .readError :: rest, k, sent => .inl ⟨sent, by rw [runWorkerAux]⟩

/-- C10: a worker's push succeeds only while the consumer end is alive — the
worker finishes cleanly (forwarding all chunks FIFO) exactly when no read
error occurred and the receiver was held at every send, and it faults
(panics at `send(..).unwrap()` or `panic!()`) exactly when the receiver was
dropped before some send or the stream erred. -/
theorem c10_send_requires_receiver (stream : List StreamItem) (alive : Nat → Bool) :
    (runWorker stream alive = .finished (streamDatas stream) ↔
      (StreamItem.readError ∉ stream ∧
        ∀ k < (streamDatas stream).length, alive k = true)) ∧
    ((∃ sent, runWorker stream alive = .panicked sent) ↔
      (StreamItem.readError ∈ stream ∨
        ∃ k, k < (streamDatas stream).length ∧ alive k = false)) := by
  unfold runWorker
  have hfin := runWorkerAux_finished alive stream 0 []
  simp only [List.nil_append, Nat.zero_add] at hfin
  refine ⟨hfin, ?_, ?_⟩
  · rintro ⟨sent, hp⟩
    by_contra hno
    push_neg at hno
    obtain ⟨hne, hall⟩ := hno
    have hf : runWorkerAux alive stream 0 [] = .finished (streamDatas stream) := by
      refine hfin.mpr ⟨hne, ?_⟩
      intro k hk
      rcases Bool.eq_false_or_eq_true (alive k) with hb | hb
      · exact hb
      · exact absurd hb (hall k hk)
    rw [hp] at hf
    exact WorkerOutcome.noConfusion hf
  · intro hbad
    rcases runWorkerAux_total alive stream 0 [] with hp | hf
    · exact hp
    · simp only [List.nil_append] at hf
      have := hfin.mp hf
      obtain ⟨hne, hall⟩ := this
      rcases hbad with hmem | ⟨k, hk, hfalse⟩
      · exact absurd hmem hne
      · rw [hall k hk] at hfalse
        exact absurd hfalse (by simp)

/-- Witness for C6 with the identity clock. -/
theorem c6_stderr_since_witness :
    Monotone (fun n : Nat => n) ∧
      ((stdoutRequest id64a).since = none ∧
        (containerLogNew id64a (fun n => n) true true)[0]? =
          some (.issueRequest (stdoutRequest id64a)) ∧
        (containerLogNew id64a (fun n => n) true true)[4]? =
          some (.issueRequest (stderrRequest id64a 3)) ∧
        (stderrRequest id64a 3).since = some 3 ∧
        (0 : Nat) ≤ 3) :=
  ⟨fun _ _ h => h, c6_stderr_since id64a (fun n => n) (fun _ _ h => h)⟩

/-- C7 (code evaluated at the failing input): a mid-stream read error makes
the worker hit `panic!()` (aborting that worker only), and the supervisor
`unwrap`s the resulting join error and panics in turn — no typed stream error
is ever delivered through the completion handle. -/
theorem c7_worker_panics :
    runWorker [.readError] (fun _ => true) = .panicked [] ∧
      runWorker [.data [104, 105], .readError] (fun _ => true) =
        .panicked [[104, 105]] ∧
      supervise (.panicked []) (.finished []) = .panicked ∧
      supervise (.finished []) (.panicked []) = .panicked :=
  ⟨rfl, rfl, rfl, rfl⟩
